import Mathlib

/-!
Shallow embedding of the go-certauth authorization core
(pantheon-systems/go-certauth) and proofs about it.

The embedding follows the current-generation sources:
  * `authorization.go` (the `AuthorizationChecker` interface,
    `AllowSpecificOUandCNs`, `allowedOU`, `allowedCN`),
  * `certauth.go` (the `Auth` middleware: `New`, `NewAuth`,
    `Auth.CheckAuthorization`, `Auth.ValidateRequest`,
    `Auth.ProcessWithParams`),
  * `pantheon/pantheon_auth.go` (`PantheonSiteAuthChecker`,
    `ParseSiteEnvFromCN`, `checkOUMembership`,
    `prepareSiteContextParams`).

Go slices that the code compares against `nil` are embedded as
`Option (List _)` (`none` = nil slice); Go maps from context keys to
context values are embedded as a record with one `Option` field per
context key actually used by the code; Go `error` values are embedded as
an inductive `AuthErr` carrying the data the code formats into the error
message, together with `AuthErr.message` reproducing the formatted text.
Functions that can panic in Go (out-of-bounds indexing) return `Option`
(`none` = panic).
-/

namespace CertAuth

/-- `httprouter.Params`: an ordered list of (key, value) pairs. -/
def Params := List (String × String)
deriving DecidableEq

/-- `httprouter.Params.ByName`: value of the first entry whose key
matches, or `""` when there is none. -/
def byName (ps : Params) (name : String) : String :=
  match ps with
  | [] => ""
  | (k, v) :: rest => if k = name then v else byName rest name

/-- The subject data of an `x509.Certificate` used by this package:
raw bytes, `Subject.OrganizationalUnit` and `Subject.CommonName`. -/
structure Certificate where
  raw : List Nat
  ou : List String
  cn : String
deriving DecidableEq

/-- The errors produced by the package, as structured data.
Each constructor corresponds to one `errors.New`/`fmt.Errorf` site. -/
inductive AuthErr where
  /-- `cert failed CN validation for %v, Allowed: %v` -/
  | cnValidation (failed : List String) (allowed : List String)
  /-- `cert failed OU validation for %v, Allowed: %v` -/
  | ouValidation (failed : List String) (allowed : List String)
  /-- `unexpected CN format: %q` -/
  | cnFormat (cn : String)
  /-- `site ID (from CN) is not a valid UUID: %q` -/
  | siteNotUUID (word : String)
  /-- `site %q is not authorized to requests for site %q` -/
  | siteMismatch (certSite uriSite : String)
  /-- `no cert chain detected` -/
  | noCertChain
  /-- `first peer certificate not first verified chain leaf` -/
  | peerLeafMismatch
deriving DecidableEq

/-- Render a `[]string` the way Go's `%v` verb does. -/
def goSliceFmt (xs : List String) : String :=
  "[" ++ String.intercalate " " xs ++ "]"

/-- The message text of each error, mirroring the Go format strings
(`%q` quoting approximated by surrounding double quotes). -/
def AuthErr.message : AuthErr → String
  | .cnValidation failed allowed =>
    "cert failed CN validation for " ++ goSliceFmt failed ++ ", Allowed: " ++ goSliceFmt allowed
  | .ouValidation failed allowed =>
    "cert failed OU validation for " ++ goSliceFmt failed ++ ", Allowed: " ++ goSliceFmt allowed
  | .cnFormat cn => "unexpected CN format: \"" ++ cn ++ "\""
  | .siteNotUUID w => "site ID (from CN) is not a valid UUID: \"" ++ w ++ "\""
  | .siteMismatch certSite uriSite =>
    "site \"" ++ certSite ++ "\" is not authorized to requests for site \"" ++ uriSite ++ "\""
  | .noCertChain => "no cert chain detected"
  | .peerLeafMismatch => "first peer certificate not first verified chain leaf"

/-- The context facts a checker may produce: a map whose only possible
keys are the four context-key constants of the package
(`HasAuthorizedOU`, `HasAuthorizedCN`, `PantheonSite`, `PantheonEnv`),
embedded as one `Option` field per key (`none` = key absent). -/
structure Facts where
  hasAuthorizedOU : Option (List String)
  hasAuthorizedCN : Option String
  pantheonSite : Option String
  pantheonEnv : Option String
deriving DecidableEq

/-- The empty facts map. -/
def Facts.empty : Facts := ⟨none, none, none, none⟩

/-- Right-biased choice on one map entry: an entry present in `b`
overwrites the entry of `a`. -/
def optOver {α : Type} (a b : Option α) : Option α :=
  match b with
  | some v => some v
  | none => a

/-- Go's `for k, v := range b { a[k] = v }` map merge: every key present
in `b` overwrites the corresponding entry of `a`. -/
def Facts.merge (a b : Facts) : Facts :=
  ⟨optOver a.hasAuthorizedOU b.hasAuthorizedOU,
   optOver a.hasAuthorizedCN b.hasAuthorizedCN,
   optOver a.pantheonSite b.pantheonSite,
   optOver a.pantheonEnv b.pantheonEnv⟩

deriving instance DecidableEq for Except

/-- Result of one checker call: `.error e` for `(nil, err)`,
`.ok none` for `(nil, nil)`, `.ok (some m)` for `(m, nil)`.
(Every error return site in the sources returns a nil map.) -/
abbrev CheckResult := Except AuthErr (Option Facts)

/-- The `AuthorizationChecker` interface: a pair of evaluation
functions, one context-free, one params-aware. -/
structure AuthorizationChecker where
  CheckAuthorization : List String → String → CheckResult
  CheckAuthorizationWithParams : List String → String → Params → CheckResult

/-- `allowedCN` of authorization.go: scan `allowedCNs` for an exact
match with `clientCN`; on a miss append `clientCN` to `failed` once per
scanned entry and finally report the validation error. -/
def allowedCNLoop (allowedCNs : List String) (clientCN : String)
    (failed : List String) (allAllowed : List String) : Option AuthErr :=
  match allowedCNs with
  | [] => some (.cnValidation failed allAllowed)
  | cn :: rest =>
    if cn = clientCN then none
    else allowedCNLoop rest clientCN (failed ++ [clientCN]) allAllowed

/-- `allowedCN(allowedCNs, clientCN)`. -/
def allowedCN (allowedCNs : List String) (clientCN : String) : Option AuthErr :=
  allowedCNLoop allowedCNs clientCN [] allowedCNs

/-- Inner loop of `allowedOU`: scan `clientOUs` against one allowed
entry `ou`, returning the grown `failed` list or signalling a match. -/
def allowedOUInner (ou : String) (clientOUs : List String)
    (failed : List String) : Option (List String) :=
  match clientOUs with
  | [] => some failed
  | c :: rest =>
    if ou = c then none
    else allowedOUInner ou rest (failed ++ [c])

/-- Outer loop of `allowedOU`: for each allowed entry, scan the client
OUs; stop with no error at the first exact match. -/
def allowedOULoop (allowedOUs : List String) (clientOUs : List String)
    (failed : List String) (allAllowed : List String) : Option AuthErr :=
  match allowedOUs with
  | [] => some (.ouValidation failed allAllowed)
  | ou :: rest =>
    match allowedOUInner ou clientOUs failed with
    | none => none
    | some failed2 => allowedOULoop rest clientOUs failed2 allAllowed

/-- `allowedOU(allowedOUs, clientOUs)`. -/
def allowedOU (allowedOUs : List String) (clientOUs : List String) : Option AuthErr :=
  allowedOULoop allowedOUs clientOUs [] allowedOUs

/-- `AllowSpecificOUandCNs`: the allow-list checker configuration. -/
structure AllowSpecificOUandCNs where
  OUs : List String
  CNs : List String
deriving DecidableEq

/-- `AllowSpecificOUandCNs.CheckAuthorization`: check OU (when `OUs`
non-empty) then CN (when `CNs` non-empty), recording the facts
`HasAuthorizedOU = clientOU` / `HasAuthorizedCN = clientCN` for each
check that ran and passed. -/
def AllowSpecificOUandCNs.CheckAuthorization (allow : AllowSpecificOUandCNs)
    (clientOU : List String) (clientCN : String) : CheckResult :=
  let step1 : Except AuthErr Facts :=
    if allow.OUs ≠ [] then
      match allowedOU allow.OUs clientOU with
      | some err => .error err
      | none => .ok ⟨some clientOU, none, none, none⟩
    else .ok Facts.empty
  match step1 with
  | .error err => .error err
  | .ok results =>
    if allow.CNs ≠ [] then
      match allowedCN allow.CNs clientCN with
      | some err => .error err
      | none => .ok (some { results with hasAuthorizedCN := some clientCN })
    else .ok (some results)

/-- `AllowSpecificOUandCNs.CheckAuthorizationWithParams` ignores the
params and falls back to `CheckAuthorization`. -/
def AllowSpecificOUandCNs.CheckAuthorizationWithParams (allow : AllowSpecificOUandCNs)
    (clientOU : List String) (clientCN : String) (_ps : Params) : CheckResult :=
  allow.CheckAuthorization clientOU clientCN

/-- Package the allow-list checker as an `AuthorizationChecker`. -/
def AllowSpecificOUandCNs.checker (allow : AllowSpecificOUandCNs) : AuthorizationChecker :=
  ⟨allow.CheckAuthorization, allow.CheckAuthorizationWithParams⟩

/-- `AllowOUsandCNs(allowedOUs, allowedCNs)`. -/
def AllowOUsandCNs (allowedOUs allowedCNs : List String) : AuthorizationChecker :=
  (AllowSpecificOUandCNs.mk allowedOUs allowedCNs).checker

/-!
## The `Auth` middleware (certauth.go)
-/

/-- The `Auth` middleware state relevant to authorization decisions:
the checker groups accumulated by `WithCheckers` options and the
deprecated `opt.AuthorizationCheckers` list. -/
structure Auth where
  checkers : List (List AuthorizationChecker)
  optCheckers : List AuthorizationChecker

/-- `New(WithCheckers(g₁), WithCheckers(g₂), ...)`: each `WithCheckers`
option appends one group; the deprecated options field stays empty. -/
def New (groups : List (List AuthorizationChecker)) : Auth :=
  ⟨groups, []⟩

/-- `NewAuth(Options{AllowedOUs, AllowedCNs, AuthorizationCheckers})`:
when either allow-list is non-empty, an `AllowOUsandCNs` checker is
appended to the options' checker list; no `WithCheckers` groups exist on
this path. -/
def NewAuth (allowedOUs allowedCNs : List String)
    (authorizationCheckers : List AuthorizationChecker) : Auth :=
  let cks :=
    if allowedOUs.length > 0 ∨ allowedCNs.length > 0 then
      authorizationCheckers ++ [AllowOUsandCNs allowedOUs allowedCNs]
    else authorizationCheckers
  ⟨[], cks⟩

/-- Dispatch one checker call the way `Auth.CheckAuthorization` does:
the context-free method when `ps == nil`, the params-aware method
otherwise. -/
def runChecker (ck : AuthorizationChecker) (ou : List String) (cn : String)
    (ps : Option Params) : CheckResult :=
  match ps with
  | none => ck.CheckAuthorization ou cn
  | some p => ck.CheckAuthorizationWithParams ou cn p

/-- The inner loop of `Auth.CheckAuthorization` over the checkers of one
group: `acc` is the shared `ctxParams` map, `err` the current value of
the shared `err` variable (left untouched when the group is empty).
A failing checker stops the loop; a passing checker's non-nil facts are
merged into `acc`. -/
def checkerLoop (ou : List String) (cn : String) (ps : Option Params) :
    List AuthorizationChecker → Facts → Option AuthErr → Facts × Option AuthErr
  | [], acc, err => (acc, err)
  | ck :: cks, acc, _ =>
    match runChecker ck ou cn ps with
    | .error e => (acc, some e)
    | .ok pm =>
      let acc2 := match pm with
        | none => acc
        | some m => acc.merge m
      checkerLoop ou cn ps cks acc2 none

/-- The outer loop of `Auth.CheckAuthorization` over the groups: after a
group, a nil `err` breaks out of the loop; the accumulated `ctxParams`
map is carried over from group to group (it is never reset). -/
def groupLoop (ou : List String) (cn : String) (ps : Option Params) :
    List (List AuthorizationChecker) → Facts → Option AuthErr → Facts × Option AuthErr
  | [], acc, err => (acc, err)
  | g :: gs, acc, err =>
    match checkerLoop ou cn ps g acc err with
    | (acc2, none) => (acc2, none)
    | (acc2, some e) => groupLoop ou cn ps gs acc2 (some e)

/-- `Auth.CheckAuthorization(verifiedCert, ps)`: build the effective
group list (configured groups plus, when non-empty, the deprecated
options' checker list as one final group) and run the two loops starting
from an empty `ctxParams` map and a nil `err`. -/
def Auth.CheckAuthorization (a : Auth) (verifiedCert : Certificate)
    (ps : Option Params) : Facts × Option AuthErr :=
  let checkers :=
    a.checkers ++ (if a.optCheckers.length > 0 then [a.optCheckers] else [])
  groupLoop verifiedCert.ou verifiedCert.cn ps checkers Facts.empty none

/-!
## The request binder (`ValidateRequest` / `ProcessWithParams`)
-/

/-- `tls.ConnectionState`, restricted to the fields the code reads.
`none` embeds a nil Go slice. -/
structure ConnState where
  verifiedChains : Option (List (List Certificate))
  peerCertificates : Option (List Certificate)

/-- `http.Request`, restricted to the field the code reads
(`r.TLS == nil` embeds as `none`). -/
structure Request where
  tls : Option ConnState

/-- Result of a fallible computation that may also panic in Go:
`none` = panic (out-of-bounds slice index). -/
abbrev GoResult (α : Type) := Option α

/-- `Auth.ValidateRequest(r)`: the no-chain precondition check followed
by the first-peer-certificate consistency check. The `[0]` indexing on
`PeerCertificates` and `VerifiedChains` carries no bounds check, so an
empty (but non-nil) slice panics, embedded as `none`. -/
def Auth.ValidateRequest (_a : Auth) (r : Request) : GoResult (Option AuthErr) :=
  match r.tls with
  | none => some (some .noCertChain)
  | some t =>
    match t.verifiedChains with
    | none => some (some .noCertChain)
    | some chains =>
      match t.peerCertificates with
      | none => some none
      | some peers =>
        match peers.head?, chains.head?.bind List.head? with
        | some p, some v =>
          if p.raw = v.raw then some none else some (some .peerLeafMismatch)
        | _, _ => none

/-- `Auth.ProcessWithParams(w, r, ps)`: validate the request, then run
`CheckAuthorization` on the leaf of the first verified chain
(`r.TLS.VerifiedChains[0][0]`, unchecked indexing = possible panic).
The returned enriched request is embedded as the facts map attached to
its context. -/
def Auth.ProcessWithParams (a : Auth) (r : Request) (ps : Option Params) :
    GoResult (Except AuthErr Facts) :=
  match a.ValidateRequest r with
  | none => none
  | some (some e) => some (.error e)
  | some none =>
    match r.tls with
    | none => none
    | some t =>
      match t.verifiedChains with
      | none => none
      | some chains =>
        match chains.head?.bind List.head? with
        | none => none
        | some leaf =>
          match a.CheckAuthorization leaf ps with
          | (_, some e) => some (.error e)
          | (facts, none) => some (.ok facts)

/-!
## The pantheon site-scope checker (pantheon/pantheon_auth.go)
-/

/-- `checkOUMembership(serverOUs, clientOUs)`: true iff some server OU
exactly equals some client OU. -/
def checkOUMembership (serverOUs clientOUs : List String) : Bool :=
  serverOUs.any (fun sou => clientOUs.any (fun cou => sou = cou))

/-- Split a character list at every `'.'` (the semantics of Go's
`strings.Split` for a one-character separator). -/
def splitDots (cs : List Char) (acc : List Char) : List (List Char) :=
  match cs with
  | [] => [acc.reverse]
  | c :: rest =>
    if c = '.' then acc.reverse :: splitDots rest []
    else splitDots rest (c :: acc)

/-- Rejoin with `"."` separators. -/
def joinDots : List String → String
  | [] => ""
  | [x] => x
  | x :: xs => x ++ "." ++ joinDots xs

/-- `strings.SplitN(s, ".", 3)`: at most three pieces, the third keeping
any further dots. -/
def splitN3 (s : String) : List String :=
  match (splitDots s.data []).map (fun cs => String.mk cs) with
  | a :: b :: c :: rest => [a, b, joinDots (c :: rest)]
  | ws => ws

/-- Hex digits accepted by `github.com/google/uuid`'s `xtob`. -/
def isHexChar (c : Char) : Bool :=
  ('0' ≤ c && c ≤ '9') || ('a' ≤ c && c ≤ 'f') || ('A' ≤ c && c ≤ 'F')

/-- The canonical `xxxxxxxx-xxxx-xxxx-xxxx-xxxxxxxxxxxx` shape over the
first 36 characters (hyphens at offsets 8, 13, 18, 23; hex digits at
every other offset below 36; characters beyond offset 35 unchecked,
exactly as `uuid.Parse` leaves them unchecked). -/
def isCanonicalUUID (cs : List Char) : Bool :=
  decide (36 ≤ cs.length) &&
  (List.range 36).all (fun i =>
    let c := cs.getD i ' '
    if i = 8 ∨ i = 13 ∨ i = 18 ∨ i = 23 then c = '-' else isHexChar c)

/-- ASCII-case-insensitive character list equality, modelling
`strings.EqualFold` on the ASCII prefix `urn:uuid:`. -/
def asciiEqualFold (a b : List Char) : Bool :=
  (a.map Char.toLower) = (b.map Char.toLower)

/-- Modelled from the external dependency `github.com/google/uuid`:
`uuid.Parse(s)` succeeds exactly on the canonical 36-character form, the
`urn:uuid:`-prefixed 45-character form, the 38-character form with a
leading brace (the trailing character is never inspected), or 32 bare
hex digits. -/
def uuidValid (s : String) : Bool :=
  let cs := s.data
  if cs.length = 36 then isCanonicalUUID cs
  else if cs.length = 45 then
    asciiEqualFold (cs.take 9) "urn:uuid:".data && isCanonicalUUID (cs.drop 9)
  else if cs.length = 38 then isCanonicalUUID (cs.drop 1)
  else if cs.length = 32 then cs.all isHexChar
  else false

/-- `ParseSiteEnvFromCN(clientCN)`: split the CN into at most three
dot-separated pieces; fewer than three is a format error; a middle piece
that is not a valid UUID is a validation error; otherwise return
`(site, environment) = (words[1], words[0])`. -/
def ParseSiteEnvFromCN (clientCN : String) : Except AuthErr (String × String) :=
  let words := splitN3 clientCN
  if words.length ≠ 3 then .error (.cnFormat clientCN)
  else
    let site := words.getD 1 ""
    if uuidValid site then .ok (site, words.getD 0 "")
    else .error (.siteNotUUID site)

/-- `prepareSiteContextParams(site, env)`. -/
def prepareSiteContextParams (site env : String) : Facts :=
  ⟨none, none, some site, some env⟩

/-- `PantheonSiteAuthChecker`: site-scope checker configuration. -/
structure PantheonSiteAuthChecker where
  SiteOUs : List String
deriving DecidableEq

/-- `PantheonSiteAuthChecker.CheckAuthorization`: without router params
the check does not apply and succeeds with a nil map. -/
def PantheonSiteAuthChecker.CheckAuthorization (_check : PantheonSiteAuthChecker)
    (_clientOU : List String) (_clientCN : String) : CheckResult :=
  .ok none

/-- `PantheonSiteAuthChecker.CheckAuthorizationWithParams`: vacuous
success when no client OU is in `SiteOUs` or the route has no `site`
parameter; otherwise parse the CN and compare the certificate site to
the URI site as plain strings. -/
def PantheonSiteAuthChecker.CheckAuthorizationWithParams
    (check : PantheonSiteAuthChecker) (clientOU : List String)
    (clientCN : String) (ps : Params) : CheckResult :=
  if ¬ checkOUMembership check.SiteOUs clientOU then .ok none
  else
    let uriSite := byName ps "site"
    if uriSite = "" then .ok none
    else
      match ParseSiteEnvFromCN clientCN with
      | .error e => .error e
      | .ok (certSite, certEnv) =>
        if certSite ≠ uriSite then .error (.siteMismatch certSite uriSite)
        else .ok (some (prepareSiteContextParams certSite certEnv))

/-- Package the site-scope checker as an `AuthorizationChecker`. -/
def PantheonSiteAuthChecker.checker (check : PantheonSiteAuthChecker) : AuthorizationChecker :=
  ⟨check.CheckAuthorization, check.CheckAuthorizationWithParams⟩

/-- `PantheonSiteAuth(allowedOUs, allowedCNs, siteOUs)`: the standard
allow-list checker followed by the site-scope checker, as one list. -/
def PantheonSiteAuth (allowedOUs allowedCNs siteOUs : List String) :
    List AuthorizationChecker :=
  [AllowOUsandCNs allowedOUs allowedCNs, (PantheonSiteAuthChecker.mk siteOUs).checker]

/-!
## Helper lemmas
-/

lemma optOver_none_left {α : Type} (b : Option α) : optOver none b = b := by
  cases b <;> rfl

lemma optOver_assoc {α : Type} (a b c : Option α) :
    optOver (optOver a b) c = optOver a (optOver b c) := by
  cases c <;> rfl

lemma Facts.merge_empty_right (a : Facts) : a.merge Facts.empty = a := rfl

lemma Facts.merge_empty_left (b : Facts) : Facts.empty.merge b = b := by
  rcases b with ⟨o1, o2, o3, o4⟩
  simp [Facts.merge, Facts.empty, optOver_none_left]

lemma Facts.merge_assoc (a b c : Facts) :
    (a.merge b).merge c = a.merge (b.merge c) := by
  rcases a with ⟨a1, a2, a3, a4⟩
  rcases b with ⟨b1, b2, b3, b4⟩
  rcases c with ⟨c1, c2, c3, c4⟩
  simp [Facts.merge, optOver_assoc]

/-- The shared `err` variable is ignored by a non-empty group's inner loop. -/
lemma checkerLoop_err_irrel (ou : List String) (cn : String) (ps : Option Params)
    (ck : AuthorizationChecker) (cks : List AuthorizationChecker) (acc : Facts)
    (e1 e2 : Option AuthErr) :
    checkerLoop ou cn ps (ck :: cks) acc e1 = checkerLoop ou cn ps (ck :: cks) acc e2 := rfl

/-- The inner loop's facts output is the incoming accumulator merged
with the facts the loop gathers from an empty start; the error outcome
does not depend on the accumulator. -/
lemma checkerLoop_acc (ou : List String) (cn : String) (ps : Option Params)
    (cks : List AuthorizationChecker) :
    ∀ (acc : Facts) (e0 : Option AuthErr),
      checkerLoop ou cn ps cks acc e0 =
        (acc.merge (checkerLoop ou cn ps cks Facts.empty e0).1,
         (checkerLoop ou cn ps cks Facts.empty e0).2) := by
  induction cks with
  | nil =>
    intro acc e0
    simp [checkerLoop, Facts.merge_empty_right]
  | cons ck cks ih =>
    intro acc e0
    simp only [checkerLoop]
    cases runChecker ck ou cn ps with
    | error e => simp [Facts.merge_empty_right]
    | ok pm =>
      cases pm with
      | none =>
        simpa using ih acc none
      | some m =>
        have hbase : checkerLoop ou cn ps cks (Facts.empty.merge m) none =
            checkerLoop ou cn ps cks m none := by
          rw [Facts.merge_empty_left]
        simp only [hbase]
        rw [ih (acc.merge m) none, ih m none, Facts.merge_assoc]

lemma allowedCNLoop_none_iff (clientCN : String) (allAllowed : List String) :
    ∀ (cns failed : List String),
      allowedCNLoop cns clientCN failed allAllowed = none ↔ clientCN ∈ cns := by
  intro cns
  induction cns with
  | nil => intro failed; simp [allowedCNLoop]
  | cons c rest ih =>
    intro failed
    by_cases h : c = clientCN
    · simp [allowedCNLoop, h]
    · have hne : ¬ clientCN = c := fun hh => h hh.symm
      simp [allowedCNLoop, h, ih, hne]

/-- `allowedCN` passes exactly when the client CN is in the allow-list. -/
lemma allowedCN_none_iff (allowedCNs : List String) (clientCN : String) :
    allowedCN allowedCNs clientCN = none ↔ clientCN ∈ allowedCNs :=
  allowedCNLoop_none_iff clientCN allowedCNs allowedCNs []

lemma allowedOUInner_none_iff (ou : String) :
    ∀ (clientOUs failed : List String),
      allowedOUInner ou clientOUs failed = none ↔ ou ∈ clientOUs := by
  intro clientOUs
  induction clientOUs with
  | nil => intro failed; simp [allowedOUInner]
  | cons c rest ih =>
    intro failed
    by_cases h : ou = c
    · simp [allowedOUInner, h]
    · simp [allowedOUInner, h, ih]

lemma allowedOULoop_none_iff (clientOUs : List String) (allAllowed : List String) :
    ∀ (allowedOUs failed : List String),
      allowedOULoop allowedOUs clientOUs failed allAllowed = none ↔
        ∃ x, x ∈ allowedOUs ∧ x ∈ clientOUs := by
  intro allowedOUs
  induction allowedOUs with
  | nil => intro failed; simp [allowedOULoop]
  | cons ou rest ih =>
    intro failed
    simp only [allowedOULoop]
    cases hinner : allowedOUInner ou clientOUs failed with
    | none =>
      have : ou ∈ clientOUs := (allowedOUInner_none_iff ou clientOUs failed).mp hinner
      simp only [List.mem_cons]
      constructor
      · intro _; exact ⟨ou, Or.inl rfl, this⟩
      · intro _; trivial
    | some failed2 =>
      have hnotin : ¬ ou ∈ clientOUs := by
        intro hmem
        have := (allowedOUInner_none_iff ou clientOUs failed).mpr hmem
        rw [hinner] at this
        exact Option.noConfusion this
      rw [ih failed2]
      simp only [List.mem_cons]
      constructor
      · rintro ⟨x, hx, hc⟩; exact ⟨x, Or.inr hx, hc⟩
      · rintro ⟨x, hx | hx, hc⟩
        · exact absurd (hx ▸ hc) hnotin
        · exact ⟨x, hx, hc⟩

/-- `allowedOU` passes exactly when some allowed OU is among the client
OUs. -/
lemma allowedOU_none_iff (allowedOUs clientOUs : List String) :
    allowedOU allowedOUs clientOUs = none ↔
      ∃ x, x ∈ allowedOUs ∧ x ∈ clientOUs :=
  allowedOULoop_none_iff clientOUs allowedOUs allowedOUs []

/-!
## Claim theorems
-/

/-- C1: claimed — an authorizer with zero checker-groups (no
`WithCheckers` groups and no legacy `AuthorizationCheckers`) denies
every input.  The code does the opposite: with zero groups the group
loop never runs, the shared `err` stays nil, and `CheckAuthorization`
returns an empty facts map with a nil error (allowing everything), on
both construction paths (`New()` with no options and `NewAuth` with an
empty `Options`). -/
theorem zeroGroups_allows_everything (raw : List Nat) (ou : List String)
    (cn : String) (ps : Option Params) :
    (New []).CheckAuthorization ⟨raw, ou, cn⟩ ps = (Facts.empty, none)
    ∧ (NewAuth [] [] []).CheckAuthorization ⟨raw, ou, cn⟩ ps = (Facts.empty, none) := by
  constructor <;> rfl

/-- When every group in `gs ++ [glast]` has a failing checker, the two
loops of `Auth.CheckAuthorization` visit every group, keep merging each
group's passing-prefix facts into the shared accumulator, and end with
the last group's error. -/
lemma groupLoop_all_fail (ou : List String) (cn : String) (ps : Option Params) :
    ∀ (gs : List (List AuthorizationChecker)) (glast : List AuthorizationChecker)
      (acc : Facts) (e0 : Option AuthErr),
      (∀ g ∈ gs ++ [glast], (checkerLoop ou cn ps g Facts.empty none).2 ≠ none) →
      groupLoop ou cn ps (gs ++ [glast]) acc e0 =
        ((gs ++ [glast]).foldl
          (fun a g => a.merge (checkerLoop ou cn ps g Facts.empty none).1) acc,
         (checkerLoop ou cn ps glast Facts.empty none).2) := by
  intro gs
  induction gs with
  | nil =>
    intro glast acc e0 h
    have hg := h glast (by simp)
    cases glast with
    | nil => simp [checkerLoop] at hg
    | cons ck cks =>
      simp only [List.nil_append, groupLoop, List.foldl]
      rw [checkerLoop_err_irrel ou cn ps ck cks acc e0 none,
          checkerLoop_acc ou cn ps (ck :: cks) acc none]
      cases he : (checkerLoop ou cn ps (ck :: cks) Facts.empty none).2 with
      | none => exact absurd he hg
      | some e => simp [groupLoop]
  | cons g gs ih =>
    intro glast acc e0 h
    have hg := h g (by simp)
    cases g with
    | nil => simp [checkerLoop] at hg
    | cons ck cks =>
      simp only [List.cons_append, groupLoop]
      rw [checkerLoop_err_irrel ou cn ps ck cks acc e0 none,
          checkerLoop_acc ou cn ps (ck :: cks) acc none]
      cases he : (checkerLoop ou cn ps (ck :: cks) Facts.empty none).2 with
      | none => exact absurd he hg
      | some e =>
        dsimp only
        simp only [List.append_eq]
        rw [ih glast (acc.merge (checkerLoop ou cn ps (ck :: cks) Facts.empty none).1)
            (some e) (fun g2 hgmem => h g2 (List.mem_cons_of_mem _ hgmem))]
        simp [List.foldl_cons]

/-- C2: counterexample — policy `[[Allow(OUs=["a"]), Allow(OUs=["b"])],
[Allow(∅,∅)]]` on client `(["a"], "")`: group 1 fails at its second
checker after its first checker contributed `HasAuthorizedOU = ["a"]`,
group 2 succeeds with no facts; the composite result keeps group 1's
fact, so it differs from evaluating group 2 alone. -/
theorem groupFacts_leak_counterexample :
    (New [[AllowOUsandCNs ["a"] [], AllowOUsandCNs ["b"] []],
          [AllowOUsandCNs [] []]]).CheckAuthorization ⟨[], ["a"], ""⟩ none
      = (⟨some ["a"], none, none, none⟩, none)
    ∧ (New [[AllowOUsandCNs [] []]]).CheckAuthorization ⟨[], ["a"], ""⟩ none
      = (Facts.empty, none)
    ∧ ((⟨some ["a"], none, none, none⟩, none) : Facts × Option AuthErr)
        ≠ ((Facts.empty, none) : Facts × Option AuthErr) := by
  refine ⟨?_, ?_, ?_⟩ <;> decide

/-- C2: amended — for groups `[G1, G2]` where `G1` fails and `G2`
(non-empty) succeeds, the composite result has a nil error, but its
facts are `G2`'s facts merged over whatever facts `G1`'s passing prefix
accumulated before `G1` failed; only when that prefix contributed
nothing does the result equal evaluating `G2` alone. -/
theorem failedGroup_facts_retained (cert : Certificate) (ps : Option Params)
    (G1 G2 : List AuthorizationChecker) (f1 f2 : Facts) (e : AuthErr)
    (hne : G2 ≠ [])
    (h1 : checkerLoop cert.ou cert.cn ps G1 Facts.empty none = (f1, some e))
    (h2 : checkerLoop cert.ou cert.cn ps G2 Facts.empty none = (f2, none)) :
    (New [G1, G2]).CheckAuthorization cert ps = (f1.merge f2, none)
    ∧ (New [G2]).CheckAuthorization cert ps = (f2, none)
    ∧ (f1 = Facts.empty → (New [G1, G2]).CheckAuthorization cert ps = (f2, none)) := by
  obtain ⟨ck, cks, rfl⟩ := List.exists_cons_of_ne_nil hne
  have hG1 : G1 ≠ [] := by
    intro hnil
    rw [hnil] at h1
    simp [checkerLoop] at h1
  obtain ⟨dk, dks, rfl⟩ := List.exists_cons_of_ne_nil hG1
  have hcomp : (New [dk :: dks, ck :: cks]).CheckAuthorization cert ps = (f1.merge f2, none) := by
    simp only [New, Auth.CheckAuthorization, List.length_nil, gt_iff_lt, lt_irrefl,
      if_false, List.append_nil, groupLoop]
    rw [h1]
    simp only [groupLoop]
    rw [checkerLoop_err_irrel cert.ou cert.cn ps ck cks f1 (some e) none,
        checkerLoop_acc cert.ou cert.cn ps (ck :: cks) f1 none, h2]
  refine ⟨hcomp, ?_, ?_⟩
  · simp only [New, Auth.CheckAuthorization, List.length_nil, gt_iff_lt, lt_irrefl,
      if_false, List.append_nil, groupLoop]
    rw [h2]
  · intro hf1
    rw [hcomp, hf1, Facts.merge_empty_left]

/-- Witness for C2's amended theorem at a concrete input: G1 =
`[Allow(OUs=["b"])]` fails at its first checker, G2 =
`[Allow(OUs=["a"])]` succeeds on client `(["a"], "")`. -/
theorem failedGroup_facts_retained_witness :
    (New [[AllowOUsandCNs ["b"] []], [AllowOUsandCNs ["a"] []]]).CheckAuthorization
        ⟨[], ["a"], ""⟩ none
      = (Facts.empty.merge ⟨some ["a"], none, none, none⟩, none)
    ∧ (New [[AllowOUsandCNs ["a"] []]]).CheckAuthorization ⟨[], ["a"], ""⟩ none
      = (⟨some ["a"], none, none, none⟩, none)
    ∧ (Facts.empty = Facts.empty →
        (New [[AllowOUsandCNs ["b"] []], [AllowOUsandCNs ["a"] []]]).CheckAuthorization
          ⟨[], ["a"], ""⟩ none = (⟨some ["a"], none, none, none⟩, none)) :=
  failedGroup_facts_retained ⟨[], ["a"], ""⟩ none
    [AllowOUsandCNs ["b"] []] [AllowOUsandCNs ["a"] []]
    Facts.empty ⟨some ["a"], none, none, none⟩
    (.ouValidation ["a"] ["b"])
    (List.cons_ne_nil _ _) (by decide) (by decide)

/-- C3: counterexample — single group `[Allow(OUs=["a"]),
Allow(OUs=["b"])]` on client `(["a"], "")`: every group fails, and the
claimed empty facts map is not returned — the facts accumulated before
the failure (`HasAuthorizedOU = ["a"]`) come back with the error. -/
theorem allFail_facts_nonempty_counterexample :
    (New [[AllowOUsandCNs ["a"] [], AllowOUsandCNs ["b"] []]]).CheckAuthorization
        ⟨[], ["a"], ""⟩ none
      = (⟨some ["a"], none, none, none⟩, some (.ouValidation ["a"] ["b"]))
    ∧ (Facts.mk (some ["a"]) none none none) ≠ Facts.empty := by
  refine ⟨?_, ?_⟩ <;> decide

/-- C3: amended — when every group fails, the composite returns the
error of the last group's failing checker together with the merge of
every group's passing-prefix facts (empty only when each group failed at
its first checker), not necessarily an empty facts map. -/
theorem allFail_lastError_merged_facts (cert : Certificate) (ps : Option Params)
    (gs : List (List AuthorizationChecker)) (glast : List AuthorizationChecker)
    (h : ∀ g ∈ gs ++ [glast],
      (checkerLoop cert.ou cert.cn ps g Facts.empty none).2 ≠ none) :
    (New (gs ++ [glast])).CheckAuthorization cert ps =
      ((gs ++ [glast]).foldl
        (fun a g => a.merge (checkerLoop cert.ou cert.cn ps g Facts.empty none).1)
        Facts.empty,
       (checkerLoop cert.ou cert.cn ps glast Facts.empty none).2) := by
  simp only [New, Auth.CheckAuthorization, List.length_nil, gt_iff_lt, lt_irrefl,
    if_false, List.append_nil]
  exact groupLoop_all_fail cert.ou cert.cn ps gs glast Facts.empty none h

/-- Witness for C3's amended theorem at a concrete input: groups
`[[Allow(OUs=["b"])], [Allow(OUs=["c"])]]` on client `(["a"], "")`. -/
theorem allFail_lastError_merged_facts_witness :
    (New [[AllowOUsandCNs ["b"] []], [AllowOUsandCNs ["c"] []]]).CheckAuthorization
        ⟨[], ["a"], ""⟩ none
      = (([[AllowOUsandCNs ["b"] []], [AllowOUsandCNs ["c"] []]]).foldl
          (fun a g => a.merge (checkerLoop ["a"] "" none g Facts.empty none).1)
          Facts.empty,
         (checkerLoop ["a"] "" none [AllowOUsandCNs ["c"] []] Facts.empty none).2) :=
  allFail_lastError_merged_facts ⟨[], ["a"], ""⟩ none
    [[AllowOUsandCNs ["b"] []]] [AllowOUsandCNs ["c"] []]
    (by
      intro g hg
      simp only [List.cons_append, List.nil_append, List.mem_cons,
        List.not_mem_nil, or_false] at hg
      rcases hg with rfl | rfl <;> decide)

/-- C4: confirmed — `AllowSpecificOUandCNs` succeeds iff (the OU
allow-list is empty or intersects the client OUs) and (the CN allow-list
is empty or contains the client CN); on success the facts carry
`HasAuthorizedOU = clientOU` exactly when the OU check ran and
`HasAuthorizedCN = clientCN` exactly when the CN check ran; the
params-aware entry point is identical to the context-free one. -/
theorem allowSpecificOUandCNs_spec (allow : AllowSpecificOUandCNs)
    (clientOU : List String) (clientCN : String) (ps : Params) :
    allow.CheckAuthorizationWithParams clientOU clientCN ps =
      allow.CheckAuthorization clientOU clientCN
    ∧ ((∃ f, allow.CheckAuthorization clientOU clientCN = .ok f) ↔
        ((allow.OUs = [] ∨ ∃ x, x ∈ clientOU ∧ x ∈ allow.OUs)
          ∧ (allow.CNs = [] ∨ clientCN ∈ allow.CNs)))
    ∧ (∀ f, allow.CheckAuthorization clientOU clientCN = .ok (some f) →
        f = ⟨if allow.OUs = [] then none else some clientOU,
             if allow.CNs = [] then none else some clientCN, none, none⟩) := by
  refine ⟨rfl, ?_, ?_⟩
  · by_cases hO : allow.OUs = [] <;> by_cases hC : allow.CNs = [] <;>
      simp only [AllowSpecificOUandCNs.CheckAuthorization, hO, hC, ne_eq,
        not_true_eq_false, not_false_eq_true, if_true, if_false, ite_true, ite_false]
    · simp [hO, hC]
    · cases hcn : allowedCN allow.CNs clientCN with
      | some e =>
        have : ¬ clientCN ∈ allow.CNs := by
          intro hmem
          rw [(allowedCN_none_iff allow.CNs clientCN).mpr hmem] at hcn
          exact Option.noConfusion hcn
        simp [hO, hC, this]
      | none =>
        have := (allowedCN_none_iff allow.CNs clientCN).mp hcn
        simp [hO, this]
    · cases hou : allowedOU allow.OUs clientOU with
      | some e =>
        have : ¬ ∃ x, x ∈ clientOU ∧ x ∈ allow.OUs := by
          rintro ⟨x, hx, ha⟩
          rw [(allowedOU_none_iff allow.OUs clientOU).mpr ⟨x, ha, hx⟩] at hou
          exact Option.noConfusion hou
        simp [hO, this]
      | none =>
        obtain ⟨x, ha, hx⟩ := (allowedOU_none_iff allow.OUs clientOU).mp hou
        simp [hC, hO]
        exact ⟨x, hx, ha⟩
    · cases hou : allowedOU allow.OUs clientOU with
      | some e =>
        have : ¬ ∃ x, x ∈ clientOU ∧ x ∈ allow.OUs := by
          rintro ⟨x, hx, ha⟩
          rw [(allowedOU_none_iff allow.OUs clientOU).mpr ⟨x, ha, hx⟩] at hou
          exact Option.noConfusion hou
        simp [hO, this]
      | none =>
        obtain ⟨x, ha, hx⟩ := (allowedOU_none_iff allow.OUs clientOU).mp hou
        cases hcn : allowedCN allow.CNs clientCN with
        | some e =>
          have : ¬ clientCN ∈ allow.CNs := by
            intro hmem
            rw [(allowedCN_none_iff allow.CNs clientCN).mpr hmem] at hcn
            exact Option.noConfusion hcn
          simp [hC, this]
        | none =>
          have := (allowedCN_none_iff allow.CNs clientCN).mp hcn
          simp [this]
          exact ⟨x, hx, ha⟩
  · intro f hf
    by_cases hO : allow.OUs = [] <;> by_cases hC : allow.CNs = [] <;>
      simp only [AllowSpecificOUandCNs.CheckAuthorization, hO, hC, ne_eq,
        not_true_eq_false, not_false_eq_true, if_true, if_false, ite_true, ite_false] at hf <;>
      simp only [hO, hC, ite_true, ite_false, if_true, if_false]
    · cases hf
      rfl
    · cases hcn : allowedCN allow.CNs clientCN <;> rw [hcn] at hf
      · cases hf
        rfl
      · exact Except.noConfusion hf
    · cases hou : allowedOU allow.OUs clientOU <;> rw [hou] at hf
      · cases hf
        rfl
      · exact Except.noConfusion hf
    · cases hou : allowedOU allow.OUs clientOU <;> rw [hou] at hf
      · cases hcn : allowedCN allow.CNs clientCN <;> rw [hcn] at hf
        · cases hf
          rfl
        · exact Except.noConfusion hf
      · exact Except.noConfusion hf

/-- Witness for C4 at a concrete input: OUs = ["a"], CNs = ["c"],
client (["a"], "c"). -/
theorem allowSpecificOUandCNs_spec_witness :
    (AllowSpecificOUandCNs.mk ["a"] ["c"]).CheckAuthorizationWithParams ["a"] "c" [] =
      (AllowSpecificOUandCNs.mk ["a"] ["c"]).CheckAuthorization ["a"] "c"
    ∧ (Facts.mk (some ["a"]) (some "c") none none =
        ⟨if (["a"] : List String) = [] then none else some ["a"],
         if (["c"] : List String) = [] then none else some "c", none, none⟩) :=
  ⟨(allowSpecificOUandCNs_spec (AllowSpecificOUandCNs.mk ["a"] ["c"]) ["a"] "c" []).1,
   (allowSpecificOUandCNs_spec (AllowSpecificOUandCNs.mk ["a"] ["c"]) ["a"] "c" []).2.2
     (Facts.mk (some ["a"]) (some "c") none none) (by decide)⟩

/-- C5: confirmed — the binder fails with the no-cert-chain error when
the request has no TLS state or a nil verified-chain list; with a
non-empty peer-certificate list present it passes the consistency check
iff the first peer certificate's raw bytes equal the first verified
chain's first certificate's raw bytes (else the leaf-mismatch error);
and `ProcessWithParams` authorizes against the first verified chain's
leaf only, so its outcome is determined by that leaf no matter what
later chains contain. -/
theorem requestBinder_spec :
    (∀ (a : Auth) (r : Request),
      (r.tls = none ∨ ∃ t, r.tls = some t ∧ t.verifiedChains = none) →
      a.ValidateRequest r = some (some .noCertChain))
    ∧ (∀ (a : Auth) (p v : Certificate) (rest vs : List Certificate)
        (chains : List (List Certificate)),
        Auth.ValidateRequest a ⟨some ⟨some ((v :: vs) :: chains), some (p :: rest)⟩⟩
          = some (if p.raw = v.raw then none else some .peerLeafMismatch))
    ∧ (∀ (a : Auth) (v : Certificate) (vs : List Certificate)
        (chains : List (List Certificate)) (ps : Option Params),
        a.ProcessWithParams ⟨some ⟨some ((v :: vs) :: chains), none⟩⟩ ps
          = some (match a.CheckAuthorization v ps with
                  | (_, some e) => .error e
                  | (facts, none) => .ok facts)) := by
  refine ⟨?_, ?_, ?_⟩
  · rintro a r (h | ⟨t, ht, hc⟩)
    · simp [Auth.ValidateRequest, h]
    · rcases t with ⟨vc, pc⟩
      cases hc
      simp [Auth.ValidateRequest, ht]
  · intro a p v rest vs chains
    by_cases h : p.raw = v.raw <;>
      simp [Auth.ValidateRequest, h]
  · intro a v vs chains ps
    cases h : a.CheckAuthorization v ps with
    | mk facts err =>
      cases err <;>
        simp [Auth.ProcessWithParams, Auth.ValidateRequest, h]

/-- Witness for C5 at concrete inputs: a request with no TLS state is
rejected with the no-chain error, and the spec's end-to-end scenario —
policy `AllowList(OUs=["endpoint","titan"], CNs=["foo.com"])`, first
verified chain leaf `OU=["site"]`, a second chain whose leaf
`OU=["endpoint"]` would pass — is denied on the first chain's leaf. -/
theorem requestBinder_spec_witness :
    (New []).ValidateRequest ⟨none⟩ = some (some .noCertChain)
    ∧ (NewAuth ["endpoint", "titan"] ["foo.com"] []).ProcessWithParams
        ⟨some ⟨some [[⟨[], ["site"], "foo.com"⟩], [⟨[], ["endpoint"], "foo.com"⟩]], none⟩⟩
        none
      = some (.error (.ouValidation ["site", "site"] ["endpoint", "titan"])) :=
  ⟨requestBinder_spec.1 (New []) ⟨none⟩ (Or.inl rfl),
   requestBinder_spec.2.2 (NewAuth ["endpoint", "titan"] ["foo.com"] [])
     ⟨[], ["site"], "foo.com"⟩ [] [[⟨[], ["endpoint"], "foo.com"⟩]] none⟩

/-- C6: confirmed — `ParseSiteEnvFromCN` errors with the format error
when splitting on dots yields fewer than three pieces, errors with the
UUID-validation error when the middle piece is not a valid UUID, and
otherwise returns `(siteID, environment)`; including the three concrete
CNs named by the claim. -/
theorem parseSiteEnvFromCN_spec :
    (∀ cn, (splitN3 cn).length ≠ 3 →
      ParseSiteEnvFromCN cn = .error (.cnFormat cn))
    ∧ (∀ cn env site rest, splitN3 cn = [env, site, rest] →
        uuidValid site = false →
        ParseSiteEnvFromCN cn = .error (.siteNotUUID site))
    ∧ (∀ cn env site rest, splitN3 cn = [env, site, rest] →
        uuidValid site = true →
        ParseSiteEnvFromCN cn = .ok (site, env))
    ∧ ParseSiteEnvFromCN "dev.de7ad059-19dd-4e45-9095-ef7507d8195b.pantheon.com"
        = .ok ("de7ad059-19dd-4e45-9095-ef7507d8195b", "dev")
    ∧ ParseSiteEnvFromCN "I_AM_A_CN" = .error (.cnFormat "I_AM_A_CN")
    ∧ ParseSiteEnvFromCN "dev.myspecialsite1.pantheon.com"
        = .error (.siteNotUUID "myspecialsite1") := by
  refine ⟨?_, ?_, ?_, by decide, by decide, by decide⟩
  · intro cn h
    simp [ParseSiteEnvFromCN, h]
  · intro cn env site rest hsplit huuid
    simp [ParseSiteEnvFromCN, hsplit, huuid]
  · intro cn env site rest hsplit huuid
    simp [ParseSiteEnvFromCN, hsplit, huuid]

/-- Witness for C6 at a concrete input: a one-piece CN takes the format
error branch. -/
theorem parseSiteEnvFromCN_spec_witness :
    ParseSiteEnvFromCN "localhost" = .error (.cnFormat "localhost") :=
  parseSiteEnvFromCN_spec.1 "localhost" (by decide)

/-- C7: confirmed — once the site check applies (OU membership, a
non-empty "site" parameter, a parsed CN), the parsed site ID is compared
to the URI site as plain strings: equality yields the
site/environment facts, inequality yields the mismatch error naming both
sites; the literal "self" gets no special treatment, so a site client
requesting `site="self"` is denied by this checker. -/
theorem siteChecker_plain_comparison :
    (∀ (check : PantheonSiteAuthChecker) (clientOU : List String) (cn : String)
        (ps : Params) (site env : String),
        checkOUMembership check.SiteOUs clientOU = true →
        byName ps "site" ≠ "" →
        ParseSiteEnvFromCN cn = .ok (site, env) →
        check.CheckAuthorizationWithParams clientOU cn ps =
          (if site = byName ps "site"
           then .ok (some (prepareSiteContextParams site env))
           else .error (.siteMismatch site (byName ps "site"))))
    ∧ (∀ s u, (AuthErr.siteMismatch s u).message =
        "site \"" ++ s ++ "\" is not authorized to requests for site \"" ++ u ++ "\"")
    ∧ (PantheonSiteAuthChecker.mk ["site"]).CheckAuthorizationWithParams ["site"]
        "dev.de7ad059-19dd-4e45-9095-ef7507d8195b.pantheon.com" [("site", "self")]
      = .error (.siteMismatch "de7ad059-19dd-4e45-9095-ef7507d8195b" "self") := by
  refine ⟨?_, fun s u => rfl, by decide⟩
  intro check clientOU cn ps site env hm hs hp
  by_cases heq : site = byName ps "site" <;>
    simp [PantheonSiteAuthChecker.CheckAuthorizationWithParams, hm, hs, hp, heq]

/-- Witness for C7 at a concrete input: matching site IDs produce the
facts; the mismatch message names both sites. -/
theorem siteChecker_plain_comparison_witness :
    (PantheonSiteAuthChecker.mk ["site"]).CheckAuthorizationWithParams ["site"]
        "dev.de7ad059-19dd-4e45-9095-ef7507d8195b.pantheon.com"
        [("site", "de7ad059-19dd-4e45-9095-ef7507d8195b")]
      = (if "de7ad059-19dd-4e45-9095-ef7507d8195b" =
            byName [("site", "de7ad059-19dd-4e45-9095-ef7507d8195b")] "site"
         then .ok (some (prepareSiteContextParams
                "de7ad059-19dd-4e45-9095-ef7507d8195b" "dev"))
         else .error (.siteMismatch "de7ad059-19dd-4e45-9095-ef7507d8195b"
                (byName [("site", "de7ad059-19dd-4e45-9095-ef7507d8195b")] "site"))) :=
  siteChecker_plain_comparison.1 (PantheonSiteAuthChecker.mk ["site"]) ["site"]
    "dev.de7ad059-19dd-4e45-9095-ef7507d8195b.pantheon.com"
    [("site", "de7ad059-19dd-4e45-9095-ef7507d8195b")]
    "de7ad059-19dd-4e45-9095-ef7507d8195b" "dev"
    (by decide) (by decide) (by decide)

/-- C8: confirmed — the site checker succeeds vacuously (no error, nil
facts) on the context-free entry point, whenever the client's OUs do not
intersect the trigger OUs, and whenever the route carries no "site"
parameter. -/
theorem siteChecker_vacuous :
    (∀ (check : PantheonSiteAuthChecker) (ou : List String) (cn : String),
      check.CheckAuthorization ou cn = .ok none)
    ∧ (∀ (check : PantheonSiteAuthChecker) (ou : List String) (cn : String)
        (ps : Params),
        checkOUMembership check.SiteOUs ou = false →
        check.CheckAuthorizationWithParams ou cn ps = .ok none)
    ∧ (∀ (check : PantheonSiteAuthChecker) (ou : List String) (cn : String)
        (ps : Params),
        byName ps "site" = "" →
        check.CheckAuthorizationWithParams ou cn ps = .ok none) := by
  refine ⟨fun check ou cn => rfl, ?_, ?_⟩
  · intro check ou cn ps hm
    simp [PantheonSiteAuthChecker.CheckAuthorizationWithParams, hm]
  · intro check ou cn ps hs
    by_cases hm : checkOUMembership check.SiteOUs ou <;>
      simp [PantheonSiteAuthChecker.CheckAuthorizationWithParams, hm, hs]

/-- Witness for C8 at concrete inputs: a non-trigger OU and a
missing "site" parameter both succeed vacuously, with a garbage CN. -/
theorem siteChecker_vacuous_witness :
    (PantheonSiteAuthChecker.mk ["site"]).CheckAuthorizationWithParams
        ["engineering"] "I_AM_A_CN" [("site", "x")] = .ok none
    ∧ (PantheonSiteAuthChecker.mk ["site"]).CheckAuthorizationWithParams
        ["site"] "I_AM_A_CN" [("nosite", "x")] = .ok none :=
  ⟨siteChecker_vacuous.2.1 (PantheonSiteAuthChecker.mk ["site"])
      ["engineering"] "I_AM_A_CN" [("site", "x")] (by decide),
   siteChecker_vacuous.2.2 (PantheonSiteAuthChecker.mk ["site"])
      ["site"] "I_AM_A_CN" [("nosite", "x")] (by decide)⟩

/-- C9: confirmed — the no-cert-chain error branch fires exactly when
the TLS state is nil or the verified-chain list is nil (never when a
list is merely empty); and for a non-nil-but-empty `PeerCertificates`
list, a non-nil-but-empty `VerifiedChains` list, or an empty first
chain, the unchecked `[0]` indexing panics (embedded as `none`) instead
of producing the documented error. -/
theorem validateRequest_partiality :
    (∀ (a : Auth) (r : Request),
      a.ValidateRequest r = some (some .noCertChain) ↔
        (r.tls = none ∨ ∃ t, r.tls = some t ∧ t.verifiedChains = none))
    ∧ (New []).ValidateRequest ⟨some ⟨some [[]], some []⟩⟩ = none
    ∧ (New []).ProcessWithParams ⟨some ⟨some [], none⟩⟩ none = none
    ∧ (New []).ProcessWithParams ⟨some ⟨some [[]], none⟩⟩ none = none := by
  refine ⟨?_, rfl, rfl, rfl⟩
  intro a r
  rcases r with ⟨tls⟩
  cases tls with
  | none => simp [Auth.ValidateRequest]
  | some t =>
    rcases t with ⟨vc, pc⟩
    cases vc with
    | none => simp [Auth.ValidateRequest]
    | some chains =>
      cases pc with
      | none => simp [Auth.ValidateRequest]
      | some peers =>
        cases peers with
        | nil => simp [Auth.ValidateRequest]
        | cons p rest =>
          cases chains with
          | nil => simp [Auth.ValidateRequest]
          | cons c cs =>
            cases c with
            | nil => simp [Auth.ValidateRequest]
            | cons v vs =>
              by_cases h : p.raw = v.raw <;>
                simp [Auth.ValidateRequest, h]

/-- C10: confirmed — every site-checker evaluation yields either nil
facts or exactly the two-entry `{PantheonSite, PantheonEnv}` map, and
the two-entry map appears exactly when the full check ran and the
certificate's parsed site ID equals the "site" path parameter; in
particular a `PantheonSite` fact in the output implies the match. -/
theorem siteChecker_facts_invariant (check : PantheonSiteAuthChecker)
    (ou : List String) (cn : String) (ps : Params) :
    check.CheckAuthorization ou cn = .ok none
    ∧ (∀ f, check.CheckAuthorizationWithParams ou cn ps = .ok (some f) →
        ∃ site env, f = prepareSiteContextParams site env
          ∧ ParseSiteEnvFromCN cn = .ok (site, env)
          ∧ byName ps "site" = site
          ∧ checkOUMembership check.SiteOUs ou = true)
    ∧ (∀ site env, checkOUMembership check.SiteOUs ou = true →
        byName ps "site" ≠ "" →
        ParseSiteEnvFromCN cn = .ok (site, env) →
        site = byName ps "site" →
        check.CheckAuthorizationWithParams ou cn ps =
          .ok (some (prepareSiteContextParams site env))) := by
  refine ⟨rfl, ?_, ?_⟩
  · intro f hf
    by_cases hm : checkOUMembership check.SiteOUs ou
    · by_cases hs : byName ps "site" = ""
      · simp [PantheonSiteAuthChecker.CheckAuthorizationWithParams, hm, hs] at hf
      · cases hp : ParseSiteEnvFromCN cn with
        | error e =>
          simp [PantheonSiteAuthChecker.CheckAuthorizationWithParams, hm, hs, hp] at hf
        | ok pr =>
          rcases pr with ⟨site, env⟩
          by_cases heq : site = byName ps "site"
          · subst heq
            have hres : check.CheckAuthorizationWithParams ou cn ps =
                .ok (some (prepareSiteContextParams (byName ps "site") env)) := by
              simp [PantheonSiteAuthChecker.CheckAuthorizationWithParams, hm, hs, hp]
            rw [hres] at hf
            obtain rfl : prepareSiteContextParams (byName ps "site") env = f := by
              injection hf with h1
              injection h1
            exact ⟨byName ps "site", env, rfl, rfl, rfl, hm⟩
          · simp [PantheonSiteAuthChecker.CheckAuthorizationWithParams,
              hm, hs, hp, heq] at hf
    · simp [PantheonSiteAuthChecker.CheckAuthorizationWithParams, hm] at hf
  · intro site env hm hs hp heq
    simp [PantheonSiteAuthChecker.CheckAuthorizationWithParams, hm, hs, hp, heq]

/-- Witness for C10 at a concrete input: the full check runs and the
site IDs match, producing the two-entry facts map. -/
theorem siteChecker_facts_invariant_witness :
    (PantheonSiteAuthChecker.mk ["site"]).CheckAuthorizationWithParams ["site"]
        "dev.de7ad059-19dd-4e45-9095-ef7507d8195b.pantheon.com"
        [("site", "de7ad059-19dd-4e45-9095-ef7507d8195b")]
      = .ok (some (prepareSiteContextParams
          "de7ad059-19dd-4e45-9095-ef7507d8195b" "dev")) :=
  (siteChecker_facts_invariant (PantheonSiteAuthChecker.mk ["site"]) ["site"]
      "dev.de7ad059-19dd-4e45-9095-ef7507d8195b.pantheon.com"
      [("site", "de7ad059-19dd-4e45-9095-ef7507d8195b")]).2.2
    "de7ad059-19dd-4e45-9095-ef7507d8195b" "dev"
    (by decide) (by decide) (by decide) (by decide)

end CertAuth
